import Mathlib

/-!
Verification of the order-lifecycle and catalog core of the cracker backend.

Strings are embedded as lists of character codes (`Str`), JavaScript
truthiness is modelled explicitly, and each HTTP handler becomes a pure
function from a request and a store to a response and an updated store.
The MongoDB primitives used by the handlers (`findOne`, `findOneAndUpdate`
with `$set`, `updateMany`) are modelled as list operations: a collection is
a list of records and `findOneAndUpdate` rewrites the first match.
-/

namespace Cracker

/-- Strings as lists of character codes. -/
abbrev Str := List Nat

/-- Character codes of a Lean string literal. -/
def codes (s : String) : Str := s.data.map Char.toNat

/-- JavaScript truthiness for an optional string field of a request body:
`undefined` and the empty string are falsy. -/
def truthy : Option Str → Bool
  | none => false
  | some s => !s.isEmpty

/-- JavaScript `x || ''` for an optional string: a falsy value is replaced
by the empty string. -/
def jsOrEmpty : Option Str → Str
  | none => []
  | some s => s

/-- Order status values.  Every write path of the backend stores only
`confirmed` (placement, rejected verification), `payment_verified`
(successful verification) or `booked` (status update / transport), so the
stored status is embedded as this three-valued type. -/
inductive OrderStatus
  | confirmed
  | payment_verified
  | booked
deriving DecidableEq, Repr

/-- The string each status is written as in the database and in messages. -/
def statusStr : OrderStatus → Str
  | .confirmed => codes "confirmed"
  | .payment_verified => codes "payment_verified"
  | .booked => codes "booked"

/-- Reading a raw request string back as a status value. -/
def decodeStatus (s : Str) : Option OrderStatus :=
  if s = codes "confirmed" then some .confirmed
  else if s = codes "payment_verified" then some .payment_verified
  else if s = codes "booked" then some .booked
  else none

/-- One order line item: `{name, price, quantity}`. -/
structure Item where
  name : Str
  price : ℚ
  quantity : ℕ
deriving DecidableEq, Repr

/-- Customer details attached to an order. -/
structure Customer where
  fullName : Str
  mobile : Str
  email : Str
  address : Str
  pincode : Str
deriving DecidableEq, Repr

/-- Payment-screenshot subdocument; `$set` on its dotted paths is modelled
as updating the corresponding optional fields. -/
structure PaymentScreenshot where
  imageUrl : Option Str
  uploadedAt : Option Nat
  verified : Option Bool
  verifiedBy : Option Str
  verifiedAt : Option Nat
deriving DecidableEq, Repr

/-- An `Order` document. -/
structure Order where
  orderId : Str
  items : List Item
  total : ℚ
  customerDetails : Customer
  status : OrderStatus
  paymentScreenshot : PaymentScreenshot
  transportName : Option Str
  lrNumber : Option Str
  createdAt : Nat
deriving DecidableEq, Repr

/-- The orders collection. -/
abbrev OrderStore := List Order

/-- `Order.findOne({orderId})`: first document with the given id. -/
def findOrder (store : OrderStore) (orderId : Str) : Option Order :=
  store.find? (fun o => o.orderId = orderId)

/-- `Order.findOneAndUpdate({orderId}, {$set: ...}, {new:true})`:
rewrite the first document with the given id by `f`, returning the updated
document and the new collection. -/
def updateOrder (store : OrderStore) (orderId : Str) (f : Order → Order) :
    Option Order × OrderStore :=
  match store with
  | [] => (none, [])
  | o :: rest =>
    if o.orderId = orderId then (some (f o), f o :: rest)
    else
      let (r, rest') := updateOrder rest orderId f
      (r, o :: rest')

/-! ### PATCH /api/orders/update-status/:orderId  (part_003 lines 553–641) -/

/-- Request body of the update-status endpoint. -/
structure UpdateStatusReq where
  status : Option Str
  transportName : Option Str
  lrNumber : Option Str

/-- Outcome of a handler: the HTTP response it sends. -/
inductive UpdateStatusResult
  | ok (order : Order)
  | notFound
  | badRequest (msg : Str)
deriving DecidableEq, Repr

/-- The `validTransitions` table of the update-status handler, with the
allowed target statuses kept as the raw strings the code compares against. -/
def validTransitions : OrderStatus → List Str
  | .confirmed => [codes "payment_verified", codes "booked"]
  | .payment_verified => [codes "booked"]
  | .booked => [codes "booked"]

/-- `list.join(', ')`. -/
def joinComma : List Str → Str
  | [] => []
  | [s] => s
  | s :: rest => s ++ codes ", " ++ joinComma rest

/-- The rejection message template of the update-status handler:
`Invalid status transition from '<current>' to '<target>'. Valid
transitions: <allowed list>`. -/
def invalidTransitionMsg (cur : OrderStatus) (target : Str) : Str :=
  codes "Invalid status transition from '" ++ statusStr cur ++
  codes "' to '" ++ target ++
  codes "'. Valid transitions: " ++ joinComma (validTransitions cur)

/-- The `$set` applied on the transport branch: store the transport fields
(`x || ''`) and force status `booked`. -/
def applyTransport (req : UpdateStatusReq) (o : Order) : Order :=
  { o with
    transportName := some (jsOrEmpty req.transportName)
    lrNumber := some (jsOrEmpty req.lrNumber)
    status := .booked }

/-- The `$set` applied on the status branch; the guard of the handler
ensures `target` is one of the table strings, all of which decode. -/
def applyStatus (target : Str) (o : Order) : Order :=
  match decodeStatus target with
  | some st => { o with status := st }
  | none => o

/-- The update-status handler (part_003 lines 553–594; the push
notification afterwards is a best-effort external call and not modelled). -/
def updateStatus (store : OrderStore) (orderId : Str) (req : UpdateStatusReq) :
    UpdateStatusResult × OrderStore :=
  if truthy req.transportName || truthy req.lrNumber then
    match updateOrder store orderId (applyTransport req) with
    | (none, _) => (.notFound, store)
    | (some o, store') => (.ok o, store')
  else if truthy req.status then
    let target := jsOrEmpty req.status
    match findOrder store orderId with
    | none => (.notFound, store)
    | some cur =>
      if target ∈ validTransitions cur.status then
        match updateOrder store orderId (applyStatus target) with
        | (none, _) => (.notFound, store)
        | (some o, store') => (.ok o, store')
      else
        (.badRequest (invalidTransitionMsg cur.status target), store)
  else
    (.badRequest (codes "Status or transport details required."), store)

/-! ### PATCH /api/orders/verify-payment/:orderId  (part_003 lines 202–237) -/

/-- Request body of the verify-payment endpoint.  `verified` is `some b`
when the body carries a boolean and `none` otherwise (the handler checks
`typeof verified !== 'boolean'`). -/
structure VerifyReq where
  verified : Option Bool
  verifiedBy : Option Str

inductive VerifyResult
  | ok (order : Order)
  | notFound
  | badRequest (msg : Str)
deriving DecidableEq, Repr

/-- The `$set` of the verify-payment handler: screenshot verified flag,
verifier identity (`verifiedBy || 'admin'`), verification time, and the
order status forced to `payment_verified` or back to `confirmed`. -/
def applyVerify (v : Bool) (verifiedBy : Option Str) (now : Nat) (o : Order) : Order :=
  { o with
    paymentScreenshot :=
      { o.paymentScreenshot with
        verified := some v
        verifiedBy := some (if truthy verifiedBy then jsOrEmpty verifiedBy else codes "admin")
        verifiedAt := some now }
    status := if v then .payment_verified else .confirmed }

/-- The verify-payment handler (part_003 lines 202–237). -/
def verifyPayment (store : OrderStore) (orderId : Str) (req : VerifyReq) (now : Nat) :
    VerifyResult × OrderStore :=
  match req.verified with
  | none => (.badRequest (codes "Verified status is required"), store)
  | some v =>
    match updateOrder store orderId (applyVerify v req.verifiedBy now) with
    | (none, _) => (.notFound, store)
    | (some o, store') => (.ok o, store')

/-! ### POST /api/categories  (part_003 lines 970–1004) -/

/-- A `CategoryDescriptor` document. -/
structure Category where
  name : Str
  displayName : Str
  isActive : Bool
deriving DecidableEq, Repr

abbrev CategoryStore := List Category

/-- Whitespace character codes recognised by `trim` / `\s`. -/
def isWsCode (n : Nat) : Bool :=
  n = 32 || n = 9 || n = 10 || n = 13 || n = 11 || n = 12

/-- JavaScript `String.prototype.trim`. -/
def trimStr (s : Str) : Str :=
  ((s.dropWhile isWsCode).reverse.dropWhile isWsCode).reverse

/-- ASCII uppercasing of one character code (`toUpperCase`). -/
def upCode (n : Nat) : Nat :=
  if 97 ≤ n ∧ n ≤ 122 then n - 32 else n

/-- JavaScript `String.prototype.toUpperCase` (ASCII fragment). -/
def upperStr (s : Str) : Str := s.map upCode

inductive CategoryResult
  | created (name : Str)
  | badRequest
  | conflict
deriving DecidableEq, Repr

/-- The add-category handler: requires a non-empty trimmed name, rejects a
duplicate of the trimmed uppercased name with 409 (`Category already
exists`), otherwise stores the new descriptor. -/
def createCategory (dir : CategoryStore) (name : Option Str) :
    CategoryResult × CategoryStore :=
  match name with
  | none => (.badRequest, dir)
  | some n =>
    if (trimStr n).length = 0 then (.badRequest, dir)
    else
      let trimmedName := upperStr (trimStr n)
      if dir.any (fun c => c.name = trimmedName) then (.conflict, dir)
      else
        (.created trimmedName,
         dir ++ [{ name := trimmedName, displayName := trimStr n, isActive := true }])

/-! ### Category-name normalization -/

/-- `category.replace(/\s+/g, '_')`, written with a flag recording whether
the previous character was whitespace: each maximal run of whitespace
becomes one underscore (code 95). -/
def collapseWsAux : Bool → Str → Str
  | _, [] => []
  | prevWs, c :: rest =>
    if isWsCode c then
      if prevWs then collapseWsAux true rest
      else 95 :: collapseWsAux true rest
    else c :: collapseWsAux false rest

/-- `category.replace(/\s+/g, '_')`. -/
def collapseWs (s : Str) : Str := collapseWsAux false s

/-- `getProductModelByCategory`'s model-name derivation
(`category.replace(/\s+/g, '_').toUpperCase()`): whitespace runs to
underscores, then uppercase.  No trimming and no hyphen handling. -/
def modelName (category : Str) : Str := upperStr (collapseWs category)

/-- `.replace(/%20/g, '_')`: each literal `%20` (codes 37, 50, 48)
becomes one underscore. -/
def replacePct20 : Str → Str
  | 37 :: 50 :: 48 :: rest => 95 :: replacePct20 rest
  | c :: rest => c :: replacePct20 rest
  | [] => []

/-- The category-route normalization of part_001 (lines 1693–1697):
`%20`, space and hyphen to underscore, then uppercase. -/
def routeNormalize (category : Str) : Str :=
  upperStr (((replacePct20 category).map
    (fun c => if c = 32 then 95 else c)).map
    (fun c => if c = 45 then 95 else c))

/-- The partition-identifier pattern `/^[A-Z0-9_]+$/`. -/
def patternMatch (s : Str) : Bool :=
  !s.isEmpty && s.all (fun n => (65 ≤ n && n ≤ 90) || (48 ≤ n && n ≤ 57) || n = 95)

/-! ### Order-identifier allocation  (orderRoutes.js lines 17–35, 161–239) -/

/-- Decimal digit codes of a number, most significant first, with a fuel
argument bounding the recursion depth. -/
def digitsBEAux : Nat → Nat → Str
  | 0, _ => []
  | fuel + 1, n =>
    if n < 10 then [48 + n]
    else digitsBEAux fuel (n / 10) ++ [48 + n % 10]

/-- Decimal digit codes of a number, most significant first
(JavaScript `String(n)`); `n` itself bounds the recursion depth. -/
def digitsBE (n : Nat) : Str := digitsBEAux (n + 1) n

/-- `String(n).padStart(3, '0')`. -/
def pad3 (n : Nat) : Str :=
  List.replicate (3 - (digitsBE n).length) 48 ++ digitsBE n

/-- One call of `getNextOrderIdForToday`: the atomic
`OrderCounter.findOneAndUpdate({_id: dateStr}, {$inc: {seq: 1}},
{upsert: true, new: true})` is a single step on the day's counter (0 when
the counter row is absent); it returns the incremented counter together
with the identifier `dateStr + String(seq).padStart(3, '0')`. -/
def getNextOrderIdForToday (dateStr : Str) (counter : Nat) : Nat × Str :=
  (counter + 1, dateStr ++ pad3 (counter + 1))

/-- Identifiers returned by `k` successive allocations for one day.
Because the read-and-increment is one atomic storage step, every
concurrent execution of `k` placement requests serializes into such a
run. -/
def allocRun (dateStr : Str) (counter : Nat) : Nat → List Str
  | 0 => []
  | k + 1 =>
    let (c', id) := getNextOrderIdForToday dateStr counter
    id :: allocRun dateStr c' k

/-- The collision-retry loop of the place handler: generate an identifier,
look it up, retry while it already exists; at most 5 generations (the loop
fails once `attempts` reaches `maxAttempts = 5`).  Returns the final
counter and the fresh identifier when one was found. -/
def allocateUnique (store : OrderStore) (dateStr : Str) :
    Nat → Nat → Nat × Option Str
  | counter, 0 => (counter, none)
  | counter, fuel + 1 =>
    let (c', id) := getNextOrderIdForToday dateStr counter
    if (findOrder store id).isSome then allocateUnique store dateStr c' fuel
    else (c', some id)

/-- Request body of order placement.  `reqStatus` is destructured by the
handler but never used: the created order always gets status
`confirmed`. -/
structure PlaceOrderReq where
  items : Option (List Item)
  total : Option ℚ
  customerDetails : Option Customer
  reqStatus : Option Str
  createdAt : Option Nat

inductive PlaceResult
  | created (orderId : Str) (order : Order)
  | missingFields
  | idGenFailed
deriving DecidableEq, Repr

/-- The order document built by both placement paths. -/
def mkOrder (orderId : Str) (items : List Item) (total : ℚ) (cust : Customer)
    (createdAt : Nat) : Order :=
  { orderId := orderId
    items := items
    total := total
    customerDetails := cust
    status := .confirmed
    paymentScreenshot := ⟨none, none, none, none, none⟩
    transportName := none
    lrNumber := none
    createdAt := createdAt }

/-- The counter-based place handler (orderRoutes.js `router.post("/place")`,
lines 161–239; invoice and email afterwards are best-effort external calls
and not modelled).  A missing `items`/`customerDetails` or a falsy `total`
(the number 0) is rejected; otherwise the order is saved with status
`confirmed`, with no check of `total` against the items. -/
def placeOrder (store : OrderStore) (counter : Nat) (dateStr : Str) (now : Nat)
    (req : PlaceOrderReq) : PlaceResult × OrderStore × Nat :=
  match req.items, req.total, req.customerDetails with
  | some items, some total, some cust =>
    if total = 0 then (.missingFields, store, counter)
    else
      match allocateUnique store dateStr counter 5 with
      | (c', none) => (.idGenFailed, store, c')
      | (c', some id) =>
        let newOrder := mkOrder id items total cust (req.createdAt.getD now)
        (.created id newOrder, store ++ [newOrder], c')
  | _, _, _ => (.missingFields, store, counter)

/-! ### createOrderSimple  (part_003 lines 441–467) -/

inductive SimpleResult
  | created (orderId : Str)
  | missingFields
deriving DecidableEq, Repr

/-- The fallback placement path serving `POST /api/orders/place` and
`POST /api/orders` in part_003.  `rand` is the draw
`Math.floor(Math.random() * 1000)`, a number in `[0, 1000)`; the
identifier is `dateStr` plus that draw zero-padded to 3 digits, saved with
no lookup of existing orders. -/
def createOrderSimple (store : OrderStore) (dateStr : Str) (rand : Nat) (now : Nat)
    (req : PlaceOrderReq) : SimpleResult × OrderStore :=
  match req.items, req.total, req.customerDetails with
  | some items, some total, some cust =>
    if total = 0 then (.missingFields, store)
    else
      let id := dateStr ++ pad3 rand
      let newOrder := mkOrder id items total cust (req.createdAt.getD now)
      (.created id, store ++ [newOrder])
  | _, _, _ => (.missingFields, store)

/-! ### POST /api/products/apply-discount  (part_003 lines 381–414) -/

/-- A product document inside a category partition. -/
structure Product where
  name_en : Str
  name_ta : Str
  price : ℚ
  original_price : Option ℚ
  imageUrl : Str
deriving DecidableEq, Repr

/-- One category partition: a collection named by its partition identifier
holding its products. -/
structure Partition where
  name : Str
  products : List Product
deriving DecidableEq, Repr

/-- The document store as seen by `listCollections`: every collection,
category partitions and others alike. -/
abbrev Catalog := List Partition

/-- MongoDB `$round [x, 0]`: round to the nearest integer, ties to the
nearest even value. -/
def roundHalfEven (q : ℚ) : ℤ :=
  if q - ⌊q⌋ < 1 / 2 then ⌊q⌋
  else if 1 / 2 < q - ⌊q⌋ then ⌊q⌋ + 1
  else if ⌊q⌋ % 2 = 0 then ⌊q⌋ else ⌊q⌋ + 1

/-- The recomputed price: `$round [{$multiply: [original, 1 - d/100]}, 0]`. -/
def discountPrice (discount : ℚ) (original : ℚ) : ℚ :=
  (roundHalfEven (original * (1 - discount / 100)) : ℤ)

/-- Effect of the discount update on one document: a product matching the
filter `original_price: {$exists: true, $ne: null}` gets the recomputed
price; any other product is untouched. -/
def discountProduct (discount : ℚ) (p : Product) : Product :=
  match p.original_price with
  | some original => { p with price := discountPrice discount original }
  | none => p

/-- The filter of the bulk update. -/
def hasOriginal (p : Product) : Bool := p.original_price.isSome

/-- `updateMany` over one collection of the loop: collections whose name
does not match `/^[A-Z0-9_]+$/` are skipped; the reported count is
MongoDB's `modifiedCount`, the number of documents the update actually
changed — a matched document whose price already equals the recomputed
value is not counted.  A document changes exactly when `discountProduct`
differs from it: products without an `original_price` never match the
filter and are untouched. -/
def applyDiscountPartition (discount : ℚ) (part : Partition) : Nat × Partition :=
  if patternMatch part.name then
    ((part.products.filter (fun p => discountProduct discount p ≠ p)).length,
     { part with products := part.products.map (discountProduct discount) })
  else (0, part)

inductive DiscountResult
  | ok (updated : Nat)
  | invalidDiscount
deriving DecidableEq, Repr

/-- The apply-discount handler: `discount` must be a number in `[0, 100]`
(otherwise 400 `Invalid discount percentage.` before touching any
collection); then each pattern-matching collection is bulk-updated and the
counts are summed. -/
def applyDiscount (catalog : Catalog) (discount : Option ℚ) :
    DiscountResult × Catalog :=
  match discount with
  | none => (.invalidDiscount, catalog)
  | some d =>
    if d < 0 ∨ 100 < d then (.invalidDiscount, catalog)
    else
      (.ok ((catalog.map (fun part => (applyDiscountPartition d part).1)).sum),
       catalog.map (fun part => (applyDiscountPartition d part).2))

/-! ## Helper lemmas -/

theorem updateOrder_fst (store : OrderStore) (id : Str) (f : Order → Order)
    (o : Order) (h : findOrder store id = some o) :
    (updateOrder store id f).1 = some (f o) := by
  induction store with
  | nil => simp [findOrder] at h
  | cons a rest ih =>
    by_cases ha : a.orderId = id
    · simp [findOrder, List.find?, ha] at h
      subst h
      simp [updateOrder, ha]
    · simp [findOrder, List.find?, ha] at h
      simp only [updateOrder, if_neg ha]
      exact ih h

theorem updateOrder_snd_find (store : OrderStore) (id : Str) (f : Order → Order)
    (o : Order) (hpres : ∀ x, (f x).orderId = x.orderId)
    (h : findOrder store id = some o) :
    findOrder (updateOrder store id f).2 id = some (f o) := by
  induction store with
  | nil => simp [findOrder] at h
  | cons a rest ih =>
    by_cases ha : a.orderId = id
    · simp [findOrder, List.find?, ha] at h
      subst h
      simp [updateOrder, findOrder, List.find?, ha, hpres]
    · simp [findOrder, List.find?, ha] at h
      simp only [updateOrder, if_neg ha]
      simp only [findOrder, List.find?] at ih ⊢
      have : (decide (a.orderId = id)) = false := by simp [ha]
      rw [this]
      simpa using ih h

/-! ## Claims -/

/-- C9: an update-status request carrying neither a truthy `status` nor a
truthy transport field is rejected with the client-input error
`Status or transport details required.` for every store, with no order
read or mutated (the response and the unchanged store are independent of
the store's content). -/
theorem updateStatus_requires_fields (store : OrderStore) (orderId : Str)
    (req : UpdateStatusReq)
    (ht : truthy req.transportName = false)
    (hl : truthy req.lrNumber = false)
    (hs : truthy req.status = false) :
    updateStatus store orderId req =
      (.badRequest (codes "Status or transport details required."), store) := by
  simp [updateStatus, ht, hl, hs]

/-- Witness for C9: a request with all three fields absent is rejected and
the store is returned unchanged. -/
theorem updateStatus_requires_fields_witness :
    updateStatus [] (codes "251011001") ⟨none, none, none⟩ =
      (.badRequest (codes "Status or transport details required."), []) :=
  updateStatus_requires_fields [] (codes "251011001") ⟨none, none, none⟩ rfl rfl rfl

/-- C2: for an existing order, an update-status request that carries a
target status and no transport fields is rejected whenever the target is
not in the allowed-transition set of the order's current status
(`confirmed → {payment_verified, booked}`, `payment_verified → {booked}`,
`booked → {booked}`); the response is the invalid-transition message
built from the current state and the allowed-target list
(`invalidTransitionMsg`), and the store is returned unchanged. -/
theorem updateStatus_invalid_transition (store : OrderStore) (orderId : Str)
    (req : UpdateStatusReq) (target : Str) (o : Order)
    (ht : truthy req.transportName = false)
    (hl : truthy req.lrNumber = false)
    (hs : req.status = some target)
    (hne : target ≠ [])
    (hfind : findOrder store orderId = some o)
    (hinv : target ∉ validTransitions o.status) :
    updateStatus store orderId req =
      (.badRequest (invalidTransitionMsg o.status target), store) := by
  have hts : truthy (some target) = true := by
    simp [truthy, List.isEmpty_iff, hne]
  simp [updateStatus, ht, hl, hs, hts, jsOrEmpty, hfind, hinv]

/-- A concrete order used by the witnesses, parameterized by its status. -/
def sampleOrder (st : OrderStatus) : Order :=
  { orderId := codes "251011001"
    items := [⟨codes "Item A", 50, 2⟩, ⟨codes "Item B", 30, 1⟩]
    total := 130
    customerDetails := ⟨codes "A B", codes "9", codes "a@b.c", codes "addr", codes "600001"⟩
    status := st
    paymentScreenshot := ⟨none, none, none, none, none⟩
    transportName := none
    lrNumber := none
    createdAt := 0 }

/-- Witness for C2: a `booked` order may not go back to `confirmed`:
the request is rejected with the message naming the current state and the
allowed targets, and the store keeps the order untouched. -/
theorem updateStatus_invalid_transition_witness :
    updateStatus [sampleOrder .booked] (codes "251011001")
      ⟨some (codes "confirmed"), none, none⟩ =
      (.badRequest (invalidTransitionMsg .booked (codes "confirmed")),
       [sampleOrder .booked]) :=
  updateStatus_invalid_transition [sampleOrder .booked] (codes "251011001")
    ⟨some (codes "confirmed"), none, none⟩ (codes "confirmed") (sampleOrder .booked)
    rfl rfl rfl (by decide) (by decide) (by decide)

/-- C3: an update-status request that carries a truthy transport carrier
name or waybill/LR number books the order: for an existing order of any
prior status the handler answers with the order updated to status
`booked` carrying the supplied transport fields, the stored order agrees,
and the transition table is never consulted (the result does not depend
on the order's status). -/
theorem updateStatus_transport_books (store : OrderStore) (orderId : Str)
    (req : UpdateStatusReq) (o : Order)
    (htr : truthy req.transportName = true ∨ truthy req.lrNumber = true)
    (hfind : findOrder store orderId = some o) :
    updateStatus store orderId req =
      (.ok (applyTransport req o), (updateOrder store orderId (applyTransport req)).2) ∧
    findOrder (updateOrder store orderId (applyTransport req)).2 orderId =
      some (applyTransport req o) ∧
    (applyTransport req o).status = .booked ∧
    (applyTransport req o).transportName = some (jsOrEmpty req.transportName) ∧
    (applyTransport req o).lrNumber = some (jsOrEmpty req.lrNumber) := by
  have hcond : (truthy req.transportName || truthy req.lrNumber) = true := by
    rcases htr with h | h <;> simp [h]
  have hfst := updateOrder_fst store orderId (applyTransport req) o hfind
  have hsnd := updateOrder_snd_find store orderId (applyTransport req) o
    (fun x => rfl) hfind
  refine ⟨?_, hsnd, rfl, rfl, rfl⟩
  rcases hu : updateOrder store orderId (applyTransport req) with ⟨r, s2⟩
  rw [hu] at hfst
  replace hfst : r = some (applyTransport req o) := hfst
  subst hfst
  simp only [updateStatus, hcond, if_true, hu]

/-- Witness for C3: supplying a carrier name to an order that is only
`confirmed` (payment never verified) still books it and stores the
transport data. -/
theorem updateStatus_transport_books_witness :
    updateStatus [sampleOrder .confirmed] (codes "251011001")
      ⟨none, some (codes "VRL"), some (codes "LR42")⟩ =
      (.ok (applyTransport ⟨none, some (codes "VRL"), some (codes "LR42")⟩
              (sampleOrder .confirmed)),
       (updateOrder [sampleOrder .confirmed] (codes "251011001")
          (applyTransport ⟨none, some (codes "VRL"), some (codes "LR42")⟩)).2) ∧
    (applyTransport ⟨none, some (codes "VRL"), some (codes "LR42")⟩
        (sampleOrder .confirmed)).status = .booked :=
  have h := updateStatus_transport_books [sampleOrder .confirmed] (codes "251011001")
    ⟨none, some (codes "VRL"), some (codes "LR42")⟩ (sampleOrder .confirmed)
    (.inl rfl) (by decide)
  ⟨h.1, h.2.2.1⟩

/-- C4: for an existing order of any prior status (including `booked`),
verify-payment with `verified = true` answers with the order's status set
to `payment_verified` and with `verified = false` sets it back to
`confirmed`; in both cases the screenshot's verified flag, verifier
identity (`verifiedBy || 'admin'`) and verification time are stored, and
the stored order agrees with the response. -/
theorem verifyPayment_sets_status (store : OrderStore) (orderId : Str)
    (v : Bool) (vb : Option Str) (now : Nat) (o : Order)
    (hfind : findOrder store orderId = some o) :
    verifyPayment store orderId ⟨some v, vb⟩ now =
      (.ok (applyVerify v vb now o),
       (updateOrder store orderId (applyVerify v vb now)).2) ∧
    findOrder (updateOrder store orderId (applyVerify v vb now)).2 orderId =
      some (applyVerify v vb now o) ∧
    (applyVerify v vb now o).status =
      (if v then .payment_verified else .confirmed) ∧
    (applyVerify v vb now o).paymentScreenshot.verified = some v ∧
    (applyVerify v vb now o).paymentScreenshot.verifiedBy =
      some (if truthy vb then jsOrEmpty vb else codes "admin") ∧
    (applyVerify v vb now o).paymentScreenshot.verifiedAt = some now := by
  have hfst := updateOrder_fst store orderId (applyVerify v vb now) o hfind
  have hsnd := updateOrder_snd_find store orderId (applyVerify v vb now) o
    (fun x => rfl) hfind
  refine ⟨?_, hsnd, rfl, rfl, rfl, rfl⟩
  rcases hu : updateOrder store orderId (applyVerify v vb now) with ⟨r, s2⟩
  rw [hu] at hfst
  replace hfst : r = some (applyVerify v vb now o) := hfst
  subst hfst
  simp only [verifyPayment, hu]

/-- Witness for C4: rejecting the payment of a `booked` order forces its
status back to `confirmed` and records the verifier. -/
theorem verifyPayment_sets_status_witness :
    verifyPayment [sampleOrder .booked] (codes "251011001")
      ⟨some false, some (codes "ops")⟩ 7 =
      (.ok (applyVerify false (some (codes "ops")) 7 (sampleOrder .booked)),
       (updateOrder [sampleOrder .booked] (codes "251011001")
          (applyVerify false (some (codes "ops")) 7)).2) ∧
    (applyVerify false (some (codes "ops")) 7 (sampleOrder .booked)).status =
      .confirmed :=
  have h := verifyPayment_sets_status [sampleOrder .booked] (codes "251011001")
    false (some (codes "ops")) 7 (sampleOrder .booked) (by decide)
  ⟨h.1, h.2.2.1⟩

/-- C7: a category-create request whose trimmed, uppercased name equals
the canonical name of a stored descriptor is rejected with 409
(`DuplicateCategory`) and the directory is unchanged; moreover every
create operation preserves distinctness of the stored canonical names, so
canonical names stay unique across the directory. -/
theorem createCategory_duplicate_rejected (dir : CategoryStore) (n : Str)
    (hne : (trimStr n).length ≠ 0)
    (hdup : ∃ c ∈ dir, c.name = upperStr (trimStr n)) :
    createCategory dir (some n) = (.conflict, dir) ∧
    ∀ (dir₀ : CategoryStore) (nm : Option Str),
      (dir₀.map Category.name).Nodup →
      (((createCategory dir₀ nm).2).map Category.name).Nodup := by
  constructor
  · have hany : dir.any (fun c => c.name = upperStr (trimStr n)) = true := by
      rcases hdup with ⟨c, hc, hcn⟩
      exact List.any_eq_true.mpr ⟨c, hc, by simp [hcn]⟩
    simp [createCategory, hne, hany]
  · intro dir₀ nm hnd
    match nm with
    | none => simpa [createCategory] using hnd
    | some m =>
      by_cases hm : (trimStr m).length = 0
      · simpa [createCategory, hm] using hnd
      · by_cases hdup₀ : dir₀.any (fun c => c.name = upperStr (trimStr m)) = true
        · simpa [createCategory, hm, hdup₀] using hnd
        · have hnotmem : upperStr (trimStr m) ∉ dir₀.map Category.name := by
            intro hmem
            rcases List.mem_map.mp hmem with ⟨c, hc, hcn⟩
            exact hdup₀ (List.any_eq_true.mpr ⟨c, hc, by simp [hcn]⟩)
          have hfalse : dir₀.any (fun c => c.name = upperStr (trimStr m)) = false :=
            Bool.eq_false_iff.mpr hdup₀
          simp only [createCategory, if_neg hm, hfalse, Bool.false_eq_true,
            if_false, List.map_append, List.map_cons, List.map_nil]
          rw [List.nodup_append]
          refine ⟨hnd, List.nodup_singleton _, ?_⟩
          intro a ha hb
          simp only [List.mem_singleton] at hb
          subst hb
          exact hnotmem ha

/-- Witness for C7: adding `" atom_bomb "` when `ATOM_BOMB` is already in
the directory is rejected and the directory is unchanged. -/
theorem createCategory_duplicate_rejected_witness :
    createCategory [⟨codes "ATOM_BOMB", codes "Atom Bomb", true⟩]
      (some (codes " atom_bomb ")) =
      (.conflict, [⟨codes "ATOM_BOMB", codes "Atom Bomb", true⟩]) :=
  (createCategory_duplicate_rejected
    [⟨codes "ATOM_BOMB", codes "Atom Bomb", true⟩] (codes " atom_bomb ")
    (by decide) (by decide)).1

/-! ## Normalization lemmas for C6 -/

theorem upCode_not_lower (c : Nat) : ¬(97 ≤ upCode c ∧ upCode c ≤ 122) := by
  unfold upCode
  split <;> omega

theorem upCode_idem (c : Nat) : upCode (upCode c) = upCode c := by
  have h := upCode_not_lower c
  show (if 97 ≤ upCode c ∧ upCode c ≤ 122 then upCode c - 32 else upCode c) = upCode c
  exact if_neg h

theorem upCode_not_ws (c : Nat) (h : isWsCode c = false) :
    isWsCode (upCode c) = false := by
  unfold upCode
  split
  · simp only [isWsCode, Bool.or_eq_false_iff, decide_eq_false_iff_not]
    omega
  · exact h

theorem collapseWsAux_cons_ws_false (a : Nat) (rest : Str) (ha : isWsCode a = true) :
    collapseWsAux false (a :: rest) = 95 :: collapseWsAux true rest := by
  simp [collapseWsAux, ha]

theorem collapseWsAux_cons_ws_true (a : Nat) (rest : Str) (ha : isWsCode a = true) :
    collapseWsAux true (a :: rest) = collapseWsAux true rest := by
  simp [collapseWsAux, ha]

theorem collapseWsAux_cons_nws (b : Bool) (a : Nat) (rest : Str)
    (ha : isWsCode a = false) :
    collapseWsAux b (a :: rest) = a :: collapseWsAux false rest := by
  simp [collapseWsAux, ha]

theorem collapseWsAux_no_ws (s : Str) :
    ∀ b, ∀ c ∈ collapseWsAux b s, isWsCode c = false := by
  induction s with
  | nil => intro b c hc; simp [collapseWsAux] at hc
  | cons a rest ih =>
    intro b c hc
    by_cases ha : isWsCode a = true
    · cases b with
      | true =>
        rw [collapseWsAux_cons_ws_true a rest ha] at hc
        exact ih true c hc
      | false =>
        rw [collapseWsAux_cons_ws_false a rest ha] at hc
        rcases List.mem_cons.mp hc with h95 | hc
        · subst h95; decide
        · exact ih true c hc
    · have ha' : isWsCode a = false := Bool.eq_false_iff.mpr ha
      rw [collapseWsAux_cons_nws b a rest ha'] at hc
      rcases List.mem_cons.mp hc with hca | hc
      · subst hca; exact ha'
      · exact ih false c hc

theorem collapseWsAux_id (s : Str) (h : ∀ c ∈ s, isWsCode c = false) :
    collapseWsAux false s = s := by
  induction s with
  | nil => rfl
  | cons a rest ih =>
    have ha : isWsCode a = false := h a (by simp)
    rw [collapseWsAux_cons_nws false a rest ha,
      ih (fun c hc => h c (by simp [hc]))]

theorem modelName_idem (s : Str) : modelName (modelName s) = modelName s := by
  show upperStr (collapseWs (upperStr (collapseWs s))) = upperStr (collapseWs s)
  have hnws : ∀ c ∈ upperStr (collapseWs s), isWsCode c = false := by
    intro c hc
    rcases List.mem_map.mp hc with ⟨d, hd, hdc⟩
    subst hdc
    exact upCode_not_ws d (collapseWsAux_no_ws s false d hd)
  rw [show collapseWs (upperStr (collapseWs s)) = upperStr (collapseWs s) from
    collapseWsAux_id _ hnws]
  show (List.map upCode (List.map upCode (collapseWs s))) = _
  rw [List.map_map]
  exact List.map_congr_left (fun c _ => upCode_idem c)

/-- Counterexample for C6: the partition-identifier derivation of
`getProductModelByCategory` replaces whitespace but not hyphens, so
`"sparkler-items"` yields `"SPARKLER-ITEMS"`, which differs from the
normalization of `"SPARKLER_ITEMS"` and does not even match
`[A-Z0-9_]+`. -/
theorem categoryNormalization_counterexample :
    modelName (codes "sparkler-items") ≠ modelName (codes "SPARKLER_ITEMS") ∧
    modelName (codes "sparkler-items") = codes "SPARKLER-ITEMS" ∧
    patternMatch (modelName (codes "sparkler-items")) = false :=
  ⟨by decide, by decide, by decide⟩

/-- C6 (amended): the model-name derivation (whitespace runs to
underscores, then uppercase — no trimming and no hyphen mapping) is
idempotent on every input, and `"Sparkler Items"` and `"SPARKLER_ITEMS"`
both normalize to the partition identifier `SPARKLER_ITEMS`, which matches
`[A-Z0-9_]+`; `"sparkler-items"` only reaches the same identifier through
the part_001 category-route normalization, which additionally maps `%20`,
spaces and hyphens to underscores and sends all three inputs to
`SPARKLER_ITEMS`. -/
theorem categoryNormalization_amended :
    (∀ s : Str, modelName (modelName s) = modelName s) ∧
    modelName (codes "Sparkler Items") = codes "SPARKLER_ITEMS" ∧
    modelName (codes "SPARKLER_ITEMS") = codes "SPARKLER_ITEMS" ∧
    patternMatch (codes "SPARKLER_ITEMS") = true ∧
    routeNormalize (codes "Sparkler Items") = codes "SPARKLER_ITEMS" ∧
    routeNormalize (codes "sparkler-items") = codes "SPARKLER_ITEMS" ∧
    routeNormalize (codes "SPARKLER_ITEMS") = codes "SPARKLER_ITEMS" :=
  ⟨modelName_idem, by decide, by decide, by decide, by decide, by decide, by decide⟩

/-! ## Digit lemmas for C8 -/

/-- Numeric value of a decimal digit string
(`parseInt` on the zero-padded suffix). -/
def strVal (s : Str) : Nat := s.foldl (fun a d => 10 * a + (d - 48)) 0

theorem strVal_append_digit (l : Str) (d : Nat) :
    strVal (l ++ [d]) = 10 * strVal l + (d - 48) := by
  simp [strVal, List.foldl_append]

theorem digitsBEAux_val : ∀ fuel n, n < fuel → strVal (digitsBEAux fuel n) = n := by
  intro fuel
  induction fuel with
  | zero => intro n hn; omega
  | succ f ih =>
    intro n hn
    by_cases h10 : n < 10
    · simp only [digitsBEAux, if_pos h10]
      simp [strVal]
    · have hrec : n / 10 < f := by omega
      simp only [digitsBEAux, if_neg h10]
      rw [strVal_append_digit, ih (n / 10) hrec]
      omega

theorem strVal_cons_zero (l : Str) : strVal (48 :: l) = strVal l := by
  simp [strVal]

theorem strVal_replicate_zero (k : Nat) (l : Str) :
    strVal (List.replicate k 48 ++ l) = strVal l := by
  induction k with
  | zero => simp
  | succ m ih =>
    rw [List.replicate_succ, List.cons_append, strVal_cons_zero, ih]

theorem strVal_pad3 (n : Nat) : strVal (pad3 n) = n := by
  unfold pad3 digitsBE
  rw [strVal_replicate_zero]
  exact digitsBEAux_val (n + 1) n (Nat.lt_succ_self n)

theorem pad3_injective {a b : Nat} (h : pad3 a = pad3 b) : a = b := by
  have hv := congrArg strVal h
  rwa [strVal_pad3, strVal_pad3] at hv

theorem allocRun_mem (d : Str) :
    ∀ (k c : Nat), ∀ s ∈ allocRun d c k,
      ∃ i, c < i ∧ i ≤ c + k ∧ s = d ++ pad3 i := by
  intro k
  induction k with
  | zero => intro c s hs; simp [allocRun] at hs
  | succ m ih =>
    intro c s hs
    simp only [allocRun, getNextOrderIdForToday, List.mem_cons] at hs
    rcases hs with h | h
    · exact ⟨c + 1, by omega, by omega, h⟩
    · rcases ih (c + 1) s h with ⟨i, h1, h2, h3⟩
      exact ⟨i, by omega, by omega, h3⟩

/-- C8: the counter-based allocator of orderRoutes.js issues pairwise
distinct identifiers for any number of placements in one day: the atomic
`$inc` makes each allocation one storage step, so a concurrent execution
of `k` placements serializes into `allocRun`, and the resulting identifier
list has no duplicate, from any initial counter value. -/
theorem allocRun_nodup (dateStr : Str) (counter k : Nat) :
    (allocRun dateStr counter k).Nodup := by
  induction k generalizing counter with
  | zero => simp [allocRun]
  | succ m ih =>
    simp only [allocRun, getNextOrderIdForToday]
    refine List.nodup_cons.mpr ⟨?_, ih (counter + 1)⟩
    intro hmem
    rcases allocRun_mem dateStr m (counter + 1) _ hmem with ⟨i, h1, h2, h3⟩
    have hpad : pad3 (counter + 1) = pad3 i := (List.append_right_inj _).mp h3
    have := pad3_injective hpad
    omega

/-! ## C1: order placement and the absent total check -/

/-- The sum of `price × quantity` over the items, as the analytics
endpoint computes revenue (part_003 line 537) and as the spec's validation
formula reads. -/
def itemsTotal (items : List Item) : ℚ :=
  items.foldl (fun acc it => acc + it.price * (it.quantity : ℚ)) 0

/-- The spec's scenario request: items `50×2` and `30×1` (summing to 130)
with the mismatched total 100. -/
def mismatchReq : PlaceOrderReq :=
  { items := some [⟨codes "Item A", 50, 2⟩, ⟨codes "Item B", 30, 1⟩]
    total := some 100
    customerDetails :=
      some ⟨codes "A B", codes "9", codes "a@b.c", codes "addr", codes "600001"⟩
    reqStatus := none
    createdAt := some 0 }

/-- Counterexample for C1: the handler performs no comparison of `total`
with the items sum.  The scenario request whose total 100 differs from the
items sum 130 is not rejected: the order is created with status
`confirmed` and persisted. -/
theorem placeOrder_counterexample :
    itemsTotal [⟨codes "Item A", 50, 2⟩, ⟨codes "Item B", 30, 1⟩] ≠ 100 ∧
    placeOrder [] 0 (codes "251011") 0 mismatchReq =
      (.created (codes "251011001")
         (mkOrder (codes "251011001")
           [⟨codes "Item A", 50, 2⟩, ⟨codes "Item B", 30, 1⟩] 100
           ⟨codes "A B", codes "9", codes "a@b.c", codes "addr", codes "600001"⟩ 0),
       [mkOrder (codes "251011001")
          [⟨codes "Item A", 50, 2⟩, ⟨codes "Item B", 30, 1⟩] 100
          ⟨codes "A B", codes "9", codes "a@b.c", codes "addr", codes "600001"⟩ 0],
       1) := by
  constructor
  · norm_num [itemsTotal]
  · rfl

/-- C1 (amended): a placement request whose `items`, `total` and
`customerDetails` are all present (with `total` a truthy, nonzero number)
creates the order with status `confirmed` and the supplied total whenever
a fresh identifier is available, whether or not the total equals the items
sum: the placement path has no `InvalidOrder` total validation. -/
theorem placeOrder_amended (store : OrderStore) (counter : Nat) (dateStr : Str)
    (now : Nat) (items : List Item) (total : ℚ) (cust : Customer)
    (rs : Option Str) (ca : Option Nat)
    (htotal : total ≠ 0)
    (hfresh : findOrder store (dateStr ++ pad3 (counter + 1)) = none) :
    placeOrder store counter dateStr now ⟨some items, some total, some cust, rs, ca⟩ =
      (.created (dateStr ++ pad3 (counter + 1))
         (mkOrder (dateStr ++ pad3 (counter + 1)) items total cust (ca.getD now)),
       store ++ [mkOrder (dateStr ++ pad3 (counter + 1)) items total cust (ca.getD now)],
       counter + 1) ∧
    (mkOrder (dateStr ++ pad3 (counter + 1)) items total cust (ca.getD now)).status =
      .confirmed := by
  constructor
  · have halloc : allocateUnique store dateStr counter 5 =
        (counter + 1, some (dateStr ++ pad3 (counter + 1))) := by
      simp [allocateUnique, getNextOrderIdForToday, hfresh]
    simp only [placeOrder, if_neg htotal, halloc]
  · rfl

/-- Witness for C1: on an empty store the request with mismatched total
100 (items sum 130) is created as `confirmed`, not rejected. -/
theorem placeOrder_amended_witness :
    placeOrder [] 0 (codes "251011") 0
      ⟨some [⟨codes "Item A", 50, 2⟩, ⟨codes "Item B", 30, 1⟩], some 100,
       some ⟨codes "A B", codes "9", codes "a@b.c", codes "addr", codes "600001"⟩,
       none, some 0⟩ =
      (.created (codes "251011" ++ pad3 1)
         (mkOrder (codes "251011" ++ pad3 1)
           [⟨codes "Item A", 50, 2⟩, ⟨codes "Item B", 30, 1⟩] 100
           ⟨codes "A B", codes "9", codes "a@b.c", codes "addr", codes "600001"⟩ 0),
       [mkOrder (codes "251011" ++ pad3 1)
          [⟨codes "Item A", 50, 2⟩, ⟨codes "Item B", 30, 1⟩] 100
          ⟨codes "A B", codes "9", codes "a@b.c", codes "addr", codes "600001"⟩ 0],
       1) ∧
    (mkOrder (codes "251011" ++ pad3 1)
       [⟨codes "Item A", 50, 2⟩, ⟨codes "Item B", 30, 1⟩] 100
       ⟨codes "A B", codes "9", codes "a@b.c", codes "addr", codes "600001"⟩ 0).status =
      .confirmed :=
  placeOrder_amended [] 0 (codes "251011") 0
    [⟨codes "Item A", 50, 2⟩, ⟨codes "Item B", 30, 1⟩] 100
    ⟨codes "A B", codes "9", codes "a@b.c", codes "addr", codes "600001"⟩
    none (some 0) (by norm_num) rfl

/-! ## C10: the random-suffix fallback path -/

theorem createOrderSimple_eq (store : OrderStore) (dateStr : Str) (r now : Nat)
    (items : List Item) (total : ℚ) (cust : Customer)
    (rs : Option Str) (ca : Option Nat) (htotal : total ≠ 0) :
    createOrderSimple store dateStr r now ⟨some items, some total, some cust, rs, ca⟩ =
      (.created (dateStr ++ pad3 r),
       store ++ [mkOrder (dateStr ++ pad3 r) items total cust (ca.getD now)]) := by
  simp only [createOrderSimple, if_neg htotal]

/-- C10: `createOrderSimple` derives the suffix from the random draw alone
and never consults the store.  First group: a call returns
`dateStr ++ pad3 r` even when an order with that very identifier is
already stored (second call with the same draw on the extended store),
so two same-day placements can return equal identifiers.  Second group:
draws 7 then 3 give suffixes 007 then 003, so the suffix is not
monotonically non-decreasing within a day. -/
theorem createOrderSimple_collisions (store : OrderStore) (dateStr : Str)
    (now₁ now₂ : Nat) (r : Nat)
    (items₁ items₂ : List Item) (total₁ total₂ : ℚ) (cust₁ cust₂ : Customer)
    (rs₁ rs₂ : Option Str) (ca₁ ca₂ : Option Nat)
    (h₁ : total₁ ≠ 0) (h₂ : total₂ ≠ 0) :
    ((createOrderSimple store dateStr r now₁
        ⟨some items₁, some total₁, some cust₁, rs₁, ca₁⟩).1 =
        .created (dateStr ++ pad3 r) ∧
      (createOrderSimple
          (store ++ [mkOrder (dateStr ++ pad3 r) items₁ total₁ cust₁ (ca₁.getD now₁)])
          dateStr r now₂ ⟨some items₂, some total₂, some cust₂, rs₂, ca₂⟩).1 =
        .created (dateStr ++ pad3 r)) ∧
    ((createOrderSimple store dateStr 7 now₁
        ⟨some items₁, some total₁, some cust₁, rs₁, ca₁⟩).1 =
        .created (dateStr ++ pad3 7) ∧
      (createOrderSimple
          (store ++ [mkOrder (dateStr ++ pad3 7) items₁ total₁ cust₁ (ca₁.getD now₁)])
          dateStr 3 now₂ ⟨some items₂, some total₂, some cust₂, rs₂, ca₂⟩).1 =
        .created (dateStr ++ pad3 3) ∧
      strVal (pad3 3) < strVal (pad3 7)) := by
  refine ⟨⟨?_, ?_⟩, ?_, ?_, by decide⟩
  · rw [createOrderSimple_eq store dateStr r now₁ items₁ total₁ cust₁ rs₁ ca₁ h₁]
  · rw [createOrderSimple_eq _ dateStr r now₂ items₂ total₂ cust₂ rs₂ ca₂ h₂]
  · rw [createOrderSimple_eq store dateStr 7 now₁ items₁ total₁ cust₁ rs₁ ca₁ h₁]
  · rw [createOrderSimple_eq _ dateStr 3 now₂ items₂ total₂ cust₂ rs₂ ca₂ h₂]

/-- Witness for C10: concrete instantiation of the collision and
non-monotonicity facts on an empty store. -/
theorem createOrderSimple_collisions_witness :
    ((createOrderSimple [] (codes "251011") 5 0
        ⟨some [], some 130, some ⟨[], [], [], [], []⟩, none, none⟩).1 =
        .created (codes "251011" ++ pad3 5) ∧
      (createOrderSimple
          ([] ++ [mkOrder (codes "251011" ++ pad3 5) [] 130 ⟨[], [], [], [], []⟩ 0])
          (codes "251011") 5 1
          ⟨some [], some 130, some ⟨[], [], [], [], []⟩, none, none⟩).1 =
        .created (codes "251011" ++ pad3 5)) ∧
    ((createOrderSimple [] (codes "251011") 7 0
        ⟨some [], some 130, some ⟨[], [], [], [], []⟩, none, none⟩).1 =
        .created (codes "251011" ++ pad3 7) ∧
      (createOrderSimple
          ([] ++ [mkOrder (codes "251011" ++ pad3 7) [] 130 ⟨[], [], [], [], []⟩ 0])
          (codes "251011") 3 1
          ⟨some [], some 130, some ⟨[], [], [], [], []⟩, none, none⟩).1 =
        .created (codes "251011" ++ pad3 3) ∧
      strVal (pad3 3) < strVal (pad3 7)) :=
  createOrderSimple_collisions [] (codes "251011") 0 1 5 [] [] 130 130
    ⟨[], [], [], [], []⟩ ⟨[], [], [], [], []⟩ none none none none
    (by norm_num) (by norm_num)

/-! ## C5: bulk discount application -/

theorem forall₂_map_self {α : Type} (R : α → α → Prop) (f : α → α) :
    ∀ l : List α, (∀ x ∈ l, R x (f x)) → List.Forall₂ R l (l.map f) := by
  intro l
  induction l with
  | nil => intro _; simp only [List.map_nil]; exact List.Forall₂.nil
  | cons a rest ih =>
    intro h
    simp only [List.map_cons]
    exact List.Forall₂.cons (h a (by simp)) (ih (fun x hx => h x (by simp [hx])))

theorem applyDiscountPartition_fst (d : ℚ) (part : Partition) :
    (applyDiscountPartition d part).1 =
      (if patternMatch part.name then
        (part.products.filter (fun p => discountProduct d p ≠ p)).length
       else 0) := by
  unfold applyDiscountPartition
  split <;> rfl

theorem discountProduct_idem (d : ℚ) (p : Product) :
    discountProduct d (discountProduct d p) = discountProduct d p := by
  unfold discountProduct
  cases hp : p.original_price with
  | none => simp [hp]
  | some original => simp [hp]

theorem applyDiscountPartition_idem (d : ℚ) (part : Partition) :
    applyDiscountPartition d (applyDiscountPartition d part).2 =
      (0, (applyDiscountPartition d part).2) := by
  by_cases hp : patternMatch part.name = true
  · have hfilter : (part.products.map (discountProduct d)).filter
        (fun p => discountProduct d p ≠ p) = [] := by
      rw [List.filter_eq_nil_iff]
      intro p hpmem
      rcases List.mem_map.mp hpmem with ⟨q, hq, hq'⟩
      subst hq'
      simp [discountProduct_idem]
    have hmap : (part.products.map (discountProduct d)).map (discountProduct d) =
        part.products.map (discountProduct d) := by
      rw [List.map_map]
      exact List.map_congr_left (fun q _ => discountProduct_idem d q)
    unfold applyDiscountPartition
    simp only [if_pos hp, hfilter, hmap, List.length_nil]
  · have hp' : patternMatch part.name = false := by simpa using hp
    unfold applyDiscountPartition
    rw [if_neg (by simp [hp']), if_neg (by simp [hp'])]

/-- C5: a discount in `[0, 100]` recomputes, in every partition whose name
matches the pattern, the price of every product carrying an original price
as `$round` of `original × (1 − d/100)`, leaves products without an
original price and non-matching collections untouched, and reports the
summed `modifiedCount`: the number of records the update actually changed
(a record whose price already equals the recomputed value is not counted,
so re-applying the same discount reports 0 and changes nothing); a
missing or out-of-range discount is rejected with
`Invalid discount percentage.` and no collection is modified.  In
particular a 50% discount on an original price of 200 yields the
price 100. -/
theorem applyDiscount_spec (catalog : Catalog) (d : ℚ)
    (h0 : 0 ≤ d) (h1 : d ≤ 100) :
    (∃ catalog',
      applyDiscount catalog (some d) =
        (.ok ((catalog.map fun part =>
            if patternMatch part.name then
              (part.products.filter (fun p => discountProduct d p ≠ p)).length
            else 0).sum),
         catalog') ∧
      List.Forall₂ (fun part part' =>
        part'.name = part.name ∧
        ((patternMatch part.name = true ∧
          List.Forall₂ (fun p p' =>
            (∀ original, p.original_price = some original →
              p' = { p with
                     price := ((roundHalfEven (original * (1 - d / 100)) : ℤ) : ℚ) }) ∧
            (p.original_price = none → p' = p)) part.products part'.products) ∨
         (patternMatch part.name = false ∧ part' = part))) catalog catalog') ∧
    applyDiscount ((applyDiscount catalog (some d)).2) (some d) =
      (.ok 0, (applyDiscount catalog (some d)).2) ∧
    (∀ (cat₀ : Catalog) (d' : ℚ), d' < 0 ∨ 100 < d' →
      applyDiscount cat₀ (some d') = (.invalidDiscount, cat₀)) ∧
    (∀ cat₀ : Catalog, applyDiscount cat₀ none = (.invalidDiscount, cat₀)) ∧
    discountPrice 50 200 = 100 := by
  have hnot : ¬(d < 0 ∨ 100 < d) := by push_neg; exact ⟨h0, h1⟩
  refine ⟨⟨catalog.map (fun part => (applyDiscountPartition d part).2), ?_, ?_⟩,
    ?_, ?_, ?_, ?_⟩
  · simp only [applyDiscount, if_neg hnot]
    rw [show (catalog.map fun part =>
        if patternMatch part.name then
          (part.products.filter (fun p => discountProduct d p ≠ p)).length
        else 0) = catalog.map fun part => (applyDiscountPartition d part).1 from
      List.map_congr_left (fun part _ => (applyDiscountPartition_fst d part).symm)]
  · apply forall₂_map_self
    intro part hpart
    constructor
    · unfold applyDiscountPartition
      split <;> rfl
    · by_cases hp : patternMatch part.name = true
      · left
        refine ⟨hp, ?_⟩
        have hprod : (applyDiscountPartition d part).2.products =
            part.products.map (discountProduct d) := by
          unfold applyDiscountPartition
          rw [if_pos hp]
        rw [hprod]
        apply forall₂_map_self
        intro p hpmem
        constructor
        · intro original hop
          simp [discountProduct, hop, discountPrice]
        · intro hop
          simp [discountProduct, hop]
      · right
        have hp' : patternMatch part.name = false := by simpa using hp
        refine ⟨hp', ?_⟩
        unfold applyDiscountPartition
        rw [if_neg (by simp [hp'])]
  · simp only [applyDiscount, if_neg hnot, List.map_map]
    have hfst : (List.map ((fun part => (applyDiscountPartition d part).1) ∘
        fun part => (applyDiscountPartition d part).2) catalog).sum = 0 := by
      have hzero : ∀ part ∈ catalog,
          ((fun part => (applyDiscountPartition d part).1) ∘
            fun part => (applyDiscountPartition d part).2) part = 0 := by
        intro part _
        show (applyDiscountPartition d (applyDiscountPartition d part).2).1 = 0
        rw [applyDiscountPartition_idem]
      rw [List.map_congr_left hzero]
      exact List.sum_eq_zero (fun x hx => by
        rcases List.mem_map.mp hx with ⟨part, _, hpx⟩
        exact hpx.symm)
    have hsnd : List.map ((fun part => (applyDiscountPartition d part).2) ∘
        fun part => (applyDiscountPartition d part).2) catalog =
        List.map (fun part => (applyDiscountPartition d part).2) catalog :=
      List.map_congr_left (fun part _ => by
        show (applyDiscountPartition d (applyDiscountPartition d part).2).2 =
          (applyDiscountPartition d part).2
        rw [applyDiscountPartition_idem])
    rw [hfst, hsnd]
  · intro cat₀ d' hd'
    simp [applyDiscount, hd']
  · intro cat₀
    rfl
  · norm_num [discountPrice, roundHalfEven]

/-- A one-partition catalog holding one product with original price 200,
used by the C5 witness. -/
def wCatalog : Catalog :=
  [⟨codes "ATOM_BOMB", [⟨codes "a", codes "b", 150, some 200, codes "u"⟩]⟩]

/-- Witness for C5: the catalog above under a 50% discount. -/
theorem applyDiscount_spec_witness :
    (∃ catalog',
      applyDiscount wCatalog (some 50) =
        (.ok ((wCatalog.map fun part =>
            if patternMatch part.name then
              (part.products.filter (fun p => discountProduct 50 p ≠ p)).length
            else 0).sum),
         catalog') ∧
      List.Forall₂ (fun part part' =>
        part'.name = part.name ∧
        ((patternMatch part.name = true ∧
          List.Forall₂ (fun p p' =>
            (∀ original, p.original_price = some original →
              p' = { p with
                     price := ((roundHalfEven (original * (1 - (50 : ℚ) / 100)) : ℤ) : ℚ) }) ∧
            (p.original_price = none → p' = p)) part.products part'.products) ∨
         (patternMatch part.name = false ∧ part' = part))) wCatalog catalog') ∧
    applyDiscount ((applyDiscount wCatalog (some 50)).2) (some 50) =
      (.ok 0, (applyDiscount wCatalog (some 50)).2) ∧
    (∀ (cat₀ : Catalog) (d' : ℚ), d' < 0 ∨ 100 < d' →
      applyDiscount cat₀ (some d') = (.invalidDiscount, cat₀)) ∧
    (∀ cat₀ : Catalog, applyDiscount cat₀ none = (.invalidDiscount, cat₀)) ∧
    discountPrice 50 200 = 100 :=
  applyDiscount_spec wCatalog 50 (by norm_num) (by norm_num)

end Cracker
